import Mathlib

/-!
Verification development for an in-memory e-commerce backend
(`src/index.ts`): a generic keyed entity repository (`InMemoryDatabase`)
and the services built on it (users, catalog, orders, payments, reviews).

Modelling conventions:
* JavaScript numbers are modelled as `ℚ` (prices, amounts, ratings) or
  `ℤ` (stock, quantities), since the program only adds, subtracts,
  multiplies and divides them.
* `Date.now()` / `new Date()` values are modelled as `Nat` ticks passed
  in as a `now` parameter; the generated entity/transaction id strings
  (built from `Date.now()` and `Math.random()`) are passed in as oracle
  string parameters, since the program treats them as opaque strings.
* The payment gateway's `Math.random() > 0.1` draw is modelled as an
  injectable `Bool` parameter.
* A JavaScript `Map` is modelled as an association list with
  replace-in-place `set` semantics (insertion order preserved).
* `parseFloat(x.toFixed(1))` is modelled as exact rounding of a rational
  to one decimal place, half away from zero for the nonnegative values
  that occur here (`roundTo1`).
-/

inductive ProductCategory where
  | Electronics | Books | HomeAppliances | Clothing | Food | Sports
deriving DecidableEq, Repr

inductive OrderStatus where
  | Pending | Processing | Shipped | Delivered | Cancelled
deriving DecidableEq, Repr

inductive UserRole where
  | Customer | Admin | Seller
deriving DecidableEq, Repr

inductive PaymentMethod where
  | CreditCard | PayPal | BankTransfer | CashOnDelivery
deriving DecidableEq, Repr

inductive PaymentStatus where
  | Paid | Unpaid
deriving DecidableEq, Repr

inductive TxnStatus where
  | Success | Failed | Refunded
deriving DecidableEq, Repr

structure Address where
  street : String
  city : String
  state : String
  zipCode : String
  country : String
deriving DecidableEq, Repr

/-- `BaseEntity` wrapper: id plus timestamps around an entity payload.
`New<T>` of the source corresponds to the bare payload type `α`. -/
structure Entity (α : Type) where
  id : String
  createdAt : Nat
  updatedAt : Nat
  payload : α
deriving DecidableEq, Repr

structure ProductData where
  name : String
  description : String
  price : ℚ
  category : ProductCategory
  stock : ℤ
  imageUrl : String
  sellerId : String
  rating : Option ℚ
  reviewsCount : Option Nat
deriving DecidableEq, Repr

structure UserData where
  username : String
  email : String
  passwordHash : String
  role : UserRole
  address : Option Address
  phone : Option String
deriving DecidableEq, Repr

structure OrderItem where
  productId : String
  productName : String
  quantity : ℤ
  priceAtOrder : ℚ
deriving DecidableEq, Repr

structure OrderData where
  userId : String
  items : List OrderItem
  totalAmount : ℚ
  status : OrderStatus
  shippingAddress : Address
  paymentMethod : PaymentMethod
  paymentStatus : PaymentStatus
  shippedDate : Option Nat
  deliveredDate : Option Nat
deriving DecidableEq, Repr

structure ReviewData where
  productId : String
  userId : String
  rating : ℚ
  comment : String
deriving DecidableEq, Repr

structure PaymentTxnData where
  orderId : String
  userId : String
  amount : ℚ
  method : PaymentMethod
  transactionId : String
  status : TxnStatus
deriving DecidableEq, Repr

/-- The generic keyed store: a JavaScript `Map<string, T>` as an
association list in insertion order. -/
abbrev InMemoryDatabase (α : Type) : Type := List (String × Entity α)

/-- `Map.set` semantics: replace in place if the key is present,
otherwise append at the end. -/
def InMemoryDatabase.setEntry {α : Type} :
    InMemoryDatabase α → String → Entity α → InMemoryDatabase α
  | [], k, v => [(k, v)]
  | (k', v') :: rest, k, v =>
    if k' = k then (k, v) :: rest else (k', v') :: InMemoryDatabase.setEntry rest k v

/-- `Map.get` semantics. -/
def InMemoryDatabase.get {α : Type} :
    InMemoryDatabase α → String → Option (Entity α)
  | [], _ => none
  | (k', v') :: rest, k => if k' = k then some v' else InMemoryDatabase.get rest k

/-- `Array.from(map.values())`. -/
def InMemoryDatabase.getAll {α : Type} (c : InMemoryDatabase α) : List (Entity α) :=
  c.map (fun pr => pr.2)

/-- `add(item)`: the generated id (`entity_<time>_<random>`) and creation
time arrive as oracle parameters `genId`, `now`; the record is completed
with them and stored under the generated id. -/
def InMemoryDatabase.add {α : Type} (c : InMemoryDatabase α) (item : α)
    (genId : String) (now : Nat) : Entity α × InMemoryDatabase α :=
  let newItem : Entity α := ⟨genId, now, now, item⟩
  (newItem, InMemoryDatabase.setEntry c genId newItem)

/-- `update(id, updates)`: merge `updates` into the existing record and
refresh `updatedAt`; `f` is the merge `{...existing, ...updates}` acting
on the payload (`id`/`createdAt` are preserved by construction). -/
def InMemoryDatabase.update {α : Type} (c : InMemoryDatabase α) (id : String)
    (f : α → α) (now : Nat) : Option (Entity α) × InMemoryDatabase α :=
  match InMemoryDatabase.get c id with
  | none => (none, c)
  | some e =>
    let updatedItem : Entity α := ⟨e.id, e.createdAt, now, f e.payload⟩
    (some updatedItem, InMemoryDatabase.setEntry c id updatedItem)

/-- `delete(id)`: returns whether the key was present, and the store
without it. -/
def InMemoryDatabase.del {α : Type} (c : InMemoryDatabase α) (id : String) :
    Bool × InMemoryDatabase α :=
  (c.any (fun pr => pr.1 = id), c.filter (fun pr => decide (pr.1 ≠ id)))

/-- `findBy(key, value)`: all records whose field (projected by `proj`)
equals `v`, in store order. -/
def InMemoryDatabase.findBy {α β : Type} [DecidableEq β]
    (c : InMemoryDatabase α) (proj : Entity α → β) (v : β) : List (Entity α) :=
  (InMemoryDatabase.getAll c).filter (fun e => decide (proj e = v))

/-- The uniform result envelope `ApiResponse<T>`. -/
structure ApiResponse (α : Type) where
  success : Bool
  data : Option α
  message : Option String
  error : Option String
deriving DecidableEq, Repr

def ApiResponse.ok {α : Type} (d : α) : ApiResponse α :=
  ⟨true, some d, none, none⟩

def ApiResponse.okMsg {α : Type} (d : α) (m : String) : ApiResponse α :=
  ⟨true, some d, some m, none⟩

def ApiResponse.err {α : Type} (e : String) : ApiResponse α :=
  ⟨false, none, none, some e⟩

def ApiResponse.errData {α : Type} (e : String) (d : α) : ApiResponse α :=
  ⟨false, some d, none, some e⟩

/-- The whole system state: the five repository instances created at
module scope in the source. -/
structure SState where
  usersDb : InMemoryDatabase UserData
  productsDb : InMemoryDatabase ProductData
  ordersDb : InMemoryDatabase OrderData
  reviewsDb : InMemoryDatabase ReviewData
  paymentsDb : InMemoryDatabase PaymentTxnData
deriving DecidableEq, Repr

def initState : SState := ⟨[], [], [], [], []⟩

/-- The returned profile value after `const { passwordHash, ...safeUser }`
destructuring: every `User` field except the credential hash. -/
structure SafeUser where
  id : String
  createdAt : Nat
  updatedAt : Nat
  username : String
  email : String
  role : UserRole
  address : Option Address
  phone : Option String
deriving DecidableEq, Repr

def Entity.toSafeUser (u : Entity UserData) : SafeUser :=
  ⟨u.id, u.createdAt, u.updatedAt, u.payload.username, u.payload.email,
   u.payload.role, u.payload.address, u.payload.phone⟩

/-- `Partial<Omit<User, 'id' | 'createdAt' | 'passwordHash'>>`. -/
structure UserUpdate where
  username : Option String
  email : Option String
  role : Option UserRole
  address : Option Address
  phone : Option String
deriving DecidableEq, Repr

/-- The spread `{...existing, ...updates}` on a user payload. -/
def UserUpdate.apply (upd : UserUpdate) (u : UserData) : UserData :=
  ⟨upd.username.getD u.username, upd.email.getD u.email, u.passwordHash,
   upd.role.getD u.role,
   match upd.address with | some a => some a | none => u.address,
   match upd.phone with | some p => some p | none => u.phone⟩

def UserService.registerUser (s : SState) (userData : UserData)
    (genId : String) (now : Nat) : ApiResponse (Entity UserData) × SState :=
  let existingUser := InMemoryDatabase.findBy s.usersDb
    (fun e => e.payload.username) userData.username
  if existingUser.length > 0 then
    (ApiResponse.err "Username already exists.", s)
  else
    let userData' : UserData :=
      { userData with
          passwordHash := "hashed_" ++ userData.passwordHash ++ "_" ++ toString now }
    let r := InMemoryDatabase.add s.usersDb userData' genId now
    (ApiResponse.ok r.1, { s with usersDb := r.2 })

def UserService.getUserProfile (s : SState) (userId : String) : ApiResponse SafeUser :=
  match InMemoryDatabase.get s.usersDb userId with
  | none => ApiResponse.err "User not found."
  | some user => ApiResponse.ok user.toSafeUser

def UserService.updateUserProfile (s : SState) (userId : String)
    (updates : UserUpdate) (now : Nat) : ApiResponse SafeUser × SState :=
  let r := InMemoryDatabase.update s.usersDb userId (UserUpdate.apply updates) now
  match r.1 with
  | none => (ApiResponse.err "User not found.", s)
  | some updatedUser =>
    (ApiResponse.ok updatedUser.toSafeUser, { s with usersDb := r.2 })

/-- `Partial<Omit<Product, 'id' | 'createdAt'>>` as passed to
`updateProduct`. -/
structure ProductUpdate where
  name : Option String
  description : Option String
  price : Option ℚ
  category : Option ProductCategory
  stock : Option ℤ
  imageUrl : Option String
  sellerId : Option String
  rating : Option ℚ
  reviewsCount : Option Nat
deriving DecidableEq, Repr

def ProductUpdate.apply (upd : ProductUpdate) (p : ProductData) : ProductData :=
  ⟨upd.name.getD p.name, upd.description.getD p.description,
   upd.price.getD p.price, upd.category.getD p.category,
   upd.stock.getD p.stock, upd.imageUrl.getD p.imageUrl,
   upd.sellerId.getD p.sellerId,
   match upd.rating with | some r => some r | none => p.rating,
   match upd.reviewsCount with | some n => some n | none => p.reviewsCount⟩

def emptyProductUpdate : ProductUpdate :=
  ⟨none, none, none, none, none, none, none, none, none⟩

def ProductService.addProduct (s : SState) (productData : ProductData)
    (genId : String) (now : Nat) : ApiResponse (Entity ProductData) × SState :=
  if productData.price ≤ 0 ∨ productData.stock < 0 then
    (ApiResponse.err "Price and stock must be positive.", s)
  else
    let r := InMemoryDatabase.add s.productsDb productData genId now
    (ApiResponse.ok r.1, { s with productsDb := r.2 })

def ProductService.getProduct (s : SState) (productId : String) :
    ApiResponse (Entity ProductData) :=
  match InMemoryDatabase.get s.productsDb productId with
  | none => ApiResponse.err "Product not found."
  | some product => ApiResponse.ok product

def ProductService.updateProduct (s : SState) (productId : String)
    (updates : ProductUpdate) (now : Nat) :
    ApiResponse (Entity ProductData) × SState :=
  let r := InMemoryDatabase.update s.productsDb productId (ProductUpdate.apply updates) now
  match r.1 with
  | none => (ApiResponse.err "Product not found.", s)
  | some updatedProduct =>
    (ApiResponse.ok updatedProduct, { s with productsDb := r.2 })

def ProductService.deleteProduct (s : SState) (productId : String)
    (_adminId : String) : ApiResponse Bool × SState :=
  match InMemoryDatabase.get s.productsDb productId with
  | none => (ApiResponse.err "Product not found.", s)
  | some _ =>
    let r := InMemoryDatabase.del s.productsDb productId
    let s' := { s with productsDb := r.2 }
    if r.1 then (ApiResponse.okMsg true "Product deleted successfully.", s')
    else (ApiResponse.err "Failed to delete product.", s')

/-- A requested line item `{ productId, quantity }` in `createOrder`. -/
structure ReqItem where
  productId : String
  quantity : ℤ
deriving DecidableEq, Repr

/-- The `for (const item of items)` loop body of `createOrder`, threading
the products store, the accumulated `orderItems` and `totalAmount`.
Returns `some errorMessage` on the first failing item, keeping whatever
stock decrements already happened (the source returns early without any
rollback). -/
def OrderService.createOrderLoop (pdb : InMemoryDatabase ProductData) :
    List ReqItem → List OrderItem → ℚ → Nat →
    Option String × InMemoryDatabase ProductData × List OrderItem × ℚ
  | [], acc, total, _ => (none, pdb, acc, total)
  | item :: rest, acc, total, now =>
    match InMemoryDatabase.get pdb item.productId with
    | none =>
      (some ("Product with ID " ++ item.productId ++ " not found."), pdb, acc, total)
    | some product =>
      if product.payload.stock < item.quantity then
        (some ("Not enough stock for product " ++ product.payload.name ++
          ". Available: " ++ toString product.payload.stock ++
          ", Requested: " ++ toString item.quantity ++ "."), pdb, acc, total)
      else
        let oi : OrderItem :=
          ⟨product.id, product.payload.name, item.quantity, product.payload.price⟩
        let pdb' := (InMemoryDatabase.update pdb product.id
          (fun pd => { pd with stock := product.payload.stock - item.quantity }) now).2
        OrderService.createOrderLoop pdb' rest (acc ++ [oi])
          (total + product.payload.price * item.quantity) now

def OrderService.createOrder (s : SState) (userId : String) (items : List ReqItem)
    (shippingAddress : Address) (paymentMethod : PaymentMethod)
    (genId : String) (now : Nat) : ApiResponse (Entity OrderData) × SState :=
  match InMemoryDatabase.get s.usersDb userId with
  | none => (ApiResponse.err "User not found.", s)
  | some _ =>
    match OrderService.createOrderLoop s.productsDb items [] 0 now with
    | (some e, pdb', _, _) => (ApiResponse.err e, { s with productsDb := pdb' })
    | (none, pdb', orderItems, totalAmount) =>
      let newOrder : OrderData :=
        ⟨userId, orderItems, totalAmount, OrderStatus.Pending, shippingAddress,
         paymentMethod, PaymentStatus.Unpaid, none, none⟩
      let r := InMemoryDatabase.add s.ordersDb newOrder genId now
      (ApiResponse.ok r.1, { s with productsDb := pdb', ordersDb := r.2 })

def OrderService.getOrder (s : SState) (orderId : String) :
    ApiResponse (Entity OrderData) :=
  match InMemoryDatabase.get s.ordersDb orderId with
  | none => ApiResponse.err "Order not found."
  | some order => ApiResponse.ok order

/-- The cancellation branch of `updateOrderStatus`: restore stock for
every line item whose product still exists (read the product at the
item's product id, add the quantity back, write at the product's own
id). -/
def OrderService.restoreStock (pdb : InMemoryDatabase ProductData)
    (items : List OrderItem) (now : Nat) : InMemoryDatabase ProductData :=
  items.foldl (fun db item =>
    match InMemoryDatabase.get db item.productId with
    | none => db
    | some product =>
      (InMemoryDatabase.update db product.id
        (fun pd => { pd with stock := product.payload.stock + item.quantity }) now).2)
    pdb

def OrderService.updateOrderStatus (s : SState) (orderId : String)
    (newStatus : OrderStatus) (now : Nat) : ApiResponse (Entity OrderData) × SState :=
  let r := InMemoryDatabase.update s.ordersDb orderId
    (fun od => { od with status := newStatus }) now
  match r.1 with
  | none => (ApiResponse.err "Order not found.", s)
  | some updatedOrder =>
    let s1 : SState := { s with ordersDb := r.2 }
    let s2 : SState :=
      if newStatus = OrderStatus.Shipped ∧ updatedOrder.payload.shippedDate = none then
        { s1 with ordersDb := (InMemoryDatabase.update s1.ordersDb orderId
            (fun od => { od with shippedDate := some now }) now).2 }
      else if newStatus = OrderStatus.Delivered ∧ updatedOrder.payload.deliveredDate = none then
        { s1 with ordersDb := (InMemoryDatabase.update s1.ordersDb orderId
            (fun od => { od with deliveredDate := some now }) now).2 }
      else if newStatus = OrderStatus.Cancelled then
        { s1 with productsDb :=
            OrderService.restoreStock s1.productsDb updatedOrder.payload.items now }
      else s1
    (ApiResponse.ok ((InMemoryDatabase.get s2.ordersDb orderId).getD updatedOrder), s2)

def PaymentService.processPayment (s : SState) (orderId userId : String)
    (amount : ℚ) (method : PaymentMethod) (transactionId genId : String)
    (gatewaySuccess : Bool) (now : Nat) :
    ApiResponse (Entity PaymentTxnData) × SState :=
  let order? := InMemoryDatabase.get s.ordersDb orderId
  match order? with
  | none => (ApiResponse.err "Invalid order or order already paid.", s)
  | some order =>
    if order.payload.userId ≠ userId ∨ order.payload.totalAmount ≠ amount ∨
        order.payload.paymentStatus = PaymentStatus.Paid then
      (ApiResponse.err "Invalid order or order already paid.", s)
    else
      let status := if gatewaySuccess then TxnStatus.Success else TxnStatus.Failed
      let newPayment : PaymentTxnData :=
        ⟨orderId, userId, amount, method, transactionId, status⟩
      let r := InMemoryDatabase.add s.paymentsDb newPayment genId now
      if gatewaySuccess then
        let odb' := (InMemoryDatabase.update s.ordersDb orderId
          (fun od => { od with paymentStatus := PaymentStatus.Paid,
                               status := OrderStatus.Processing }) now).2
        (ApiResponse.okMsg r.1 "Payment successful!",
         { s with paymentsDb := r.2, ordersDb := odb' })
      else
        (ApiResponse.errData "Payment failed." r.1, { s with paymentsDb := r.2 })

/-- Rounding to one decimal place, half away from zero on the
nonnegative values that occur: the model of
`parseFloat(x.toFixed(1))`. -/
def roundTo1 (q : ℚ) : ℚ := ((Rat.floor (q * 10 + 1 / 2) : ℤ) : ℚ) / 10

def ReviewService.submitReview (s : SState) (reviewData : ReviewData)
    (genId : String) (now : Nat) : ApiResponse (Entity ReviewData) × SState :=
  if reviewData.rating < 1 ∨ reviewData.rating > 5 then
    (ApiResponse.err "Rating must be between 1 and 5.", s)
  else
    match InMemoryDatabase.get s.productsDb reviewData.productId with
    | none => (ApiResponse.err "Product not found for review.", s)
    | some product =>
      let r := InMemoryDatabase.add s.reviewsDb reviewData genId now
      let productReviews := InMemoryDatabase.findBy r.2
        (fun e => e.payload.productId) product.id
      let totalRating := productReviews.foldl (fun sum rv => sum + rv.payload.rating) 0
      let newAverageRating := totalRating / (productReviews.length : ℚ)
      let pdb' := (InMemoryDatabase.update s.productsDb product.id
        (fun pd => { pd with rating := some (roundTo1 newAverageRating),
                             reviewsCount := some productReviews.length }) now).2
      (ApiResponse.ok r.1, { s with reviewsDb := r.2, productsDb := pdb' })

/-- Observation: the stock of the product stored under `pid`. -/
def stockOf (s : SState) (pid : String) : Option ℤ :=
  (InMemoryDatabase.get s.productsDb pid).map (fun e => e.payload.stock)

/-- Total quantity requested for product id `pid` across a line-item
list. -/
def reqQty (items : List ReqItem) (pid : String) : ℤ :=
  ((items.filter (fun it => decide (it.productId = pid))).map
    (fun it => it.quantity)).sum

/-- The `OrderItem` that `createOrder` captures for one requested line
item, read off a products store (junk defaults for an absent product,
never reached on a successful order). -/
def captureItem (pdb : InMemoryDatabase ProductData) (it : ReqItem) : OrderItem :=
  match InMemoryDatabase.get pdb it.productId with
  | some p => ⟨p.id, p.payload.name, it.quantity, p.payload.price⟩
  | none => ⟨it.productId, "", it.quantity, 0⟩

/-- Observation: the price of the product stored under `pid` (0 if
absent). -/
def priceOf (pdb : InMemoryDatabase ProductData) (pid : String) : ℚ :=
  ((InMemoryDatabase.get pdb pid).map (fun e => e.payload.price)).getD 0

/-- The arithmetic mean of the ratings in a review list. -/
def meanRating (l : List (Entity ReviewData)) : ℚ :=
  ((l.map (fun r => r.payload.rating)).sum) / (l.length : ℚ)

/-- Store well-formedness: every record's `id` field equals its map
key. `add` and `update` maintain this by construction. -/
def dbWF {α : Type} (c : InMemoryDatabase α) : Prop :=
  ∀ pr ∈ c, pr.2.id = pr.1

/-- Every stored product has nonnegative stock. -/
def stockInvP (c : InMemoryDatabase ProductData) : Prop :=
  ∀ pr ∈ c, 0 ≤ pr.2.payload.stock

/-- Every stored order's line items all have nonnegative quantity. -/
def itemsInvP (c : InMemoryDatabase OrderData) : Prop :=
  ∀ pr ∈ c, ∀ oi ∈ pr.2.payload.items, 0 ≤ oi.quantity

/-- No product in the catalog has negative stock. -/
def stockInv (s : SState) : Prop := stockInvP s.productsDb

/-- One invocation of a state-mutating service operation, together with
its oracle inputs (generated ids, clock ticks, gateway decision). -/
inductive Op where
  | registerUser (userData : UserData) (genId : String) (now : Nat)
  | updateUserProfile (userId : String) (updates : UserUpdate) (now : Nat)
  | addProduct (productData : ProductData) (genId : String) (now : Nat)
  | updateProduct (productId : String) (updates : ProductUpdate) (now : Nat)
  | deleteProduct (productId adminId : String)
  | createOrder (userId : String) (items : List ReqItem)
      (shippingAddress : Address) (paymentMethod : PaymentMethod)
      (genId : String) (now : Nat)
  | updateOrderStatus (orderId : String) (newStatus : OrderStatus) (now : Nat)
  | processPayment (orderId userId : String) (amount : ℚ)
      (method : PaymentMethod) (transactionId genId : String)
      (gatewaySuccess : Bool) (now : Nat)
  | submitReview (reviewData : ReviewData) (genId : String) (now : Nat)
deriving DecidableEq, Repr

/-- The state transition of one service operation (dropping its result
envelope). -/
def applyOp (s : SState) : Op → SState
  | Op.registerUser ud g t => (UserService.registerUser s ud g t).2
  | Op.updateUserProfile uid u t => (UserService.updateUserProfile s uid u t).2
  | Op.addProduct pd g t => (ProductService.addProduct s pd g t).2
  | Op.updateProduct pid u t => (ProductService.updateProduct s pid u t).2
  | Op.deleteProduct pid aid => (ProductService.deleteProduct s pid aid).2
  | Op.createOrder uid its addr pm g t =>
      (OrderService.createOrder s uid its addr pm g t).2
  | Op.updateOrderStatus oid st t => (OrderService.updateOrderStatus s oid st t).2
  | Op.processPayment oid uid amt m txn g gw t =>
      (PaymentService.processPayment s oid uid amt m txn g gw t).2
  | Op.submitReview rd g t => (ReviewService.submitReview s rd g t).2

/-- Benign operations: `updateProduct` never injects a negative stock
value and `createOrder` is never asked for a negative quantity. -/
def goodOp : Op → Bool
  | Op.updateProduct _ u _ =>
      match u.stock with
      | none => true
      | some q => decide (0 ≤ q)
  | Op.createOrder _ items _ _ _ _ => items.all (fun it => decide (0 ≤ it.quantity))
  | _ => true

/-- The inductive invariant: nonnegative stock everywhere, and every
stored order's line items have nonnegative quantities. -/
def SInv (s : SState) : Prop := stockInvP s.productsDb ∧ itemsInvP s.ordersDb

/-- Concrete fixtures used by the closed evaluations and witnesses. -/
def addrX : Address := ⟨"1 Main St", "Anytown", "CA", "90210", "USA"⟩

def userX : Entity UserData :=
  ⟨"u1", 0, 0,
   ⟨"alice", "alice@example.com", "hashed_pw_0", UserRole.Customer, some addrX, none⟩⟩

def prodA : Entity ProductData :=
  ⟨"pA", 0, 0,
   ⟨"Headphones", "desc", 10, ProductCategory.Electronics, 5, "img", "s1", none, none⟩⟩

def prodB : Entity ProductData :=
  ⟨"pB", 0, 0,
   ⟨"Book", "desc", 4, ProductCategory.Books, 1, "img", "s1", none, none⟩⟩

def sC1 : SState := ⟨[("u1", userX)], [("pA", prodA), ("pB", prodB)], [], [], []⟩

def orderC2 : Entity OrderData :=
  ⟨"o1", 0, 0,
   ⟨"u1", [⟨"pA", "Headphones", 2, 10⟩], 20, OrderStatus.Cancelled, addrX,
    PaymentMethod.CreditCard, PaymentStatus.Unpaid, none, none⟩⟩

def sC2 : SState := ⟨[("u1", userX)], [("pA", prodA)], [("o1", orderC2)], [], []⟩

def orderC5 : Entity OrderData :=
  ⟨"o1", 0, 0,
   ⟨"u1", [⟨"pA", "Headphones", 2, 10⟩], 20, OrderStatus.Pending, addrX,
    PaymentMethod.CreditCard, PaymentStatus.Unpaid, none, none⟩⟩

def sC5 : SState := ⟨[("u1", userX)], [("pA", prodA)], [("o1", orderC5)], [], []⟩

def rev1 : Entity ReviewData := ⟨"r1", 0, 0, ⟨"pA", "u1", 5, "great"⟩⟩

def rev2 : Entity ReviewData := ⟨"r2", 0, 0, ⟨"pA", "u2", 3, "ok"⟩⟩

def sC6 : SState :=
  ⟨[("u1", userX)], [("pA", prodA)], [], [("r1", rev1), ("r2", rev2)], []⟩

def rdW : ReviewData := ⟨"pA", "u1", 4, "nice"⟩

def udW : UserData :=
  ⟨"alice", "alice@example.com", "secret123", UserRole.Customer, some addrX, none⟩

def opsC3 : List Op :=
  [Op.addProduct ⟨"A", "d", 10, ProductCategory.Electronics, 5, "img", "s1", none, none⟩
     "p1" 0,
   Op.updateProduct "p1" { emptyProductUpdate with stock := some (-1) } 1]

def opsC3good : List Op :=
  [Op.registerUser udW "u1" 0,
   Op.addProduct ⟨"A", "d", 10, ProductCategory.Electronics, 5, "img", "s1", none, none⟩
     "p1" 1,
   Op.createOrder "u1" [⟨"p1", 2⟩] addrX PaymentMethod.CreditCard "o1" 2,
   Op.updateOrderStatus "o1" OrderStatus.Cancelled 3,
   Op.updateOrderStatus "o1" OrderStatus.Cancelled 4]

theorem InMemoryDatabase.get_setEntry_self {α : Type} (c : InMemoryDatabase α)
    (k : String) (v : Entity α) :
    InMemoryDatabase.get (InMemoryDatabase.setEntry c k v) k = some v := by
  induction c with
  | nil => simp [InMemoryDatabase.setEntry, InMemoryDatabase.get]
  | cons hd tl ih =>
    obtain ⟨k', v'⟩ := hd
    by_cases h : k' = k
    · simp [InMemoryDatabase.setEntry, h, InMemoryDatabase.get]
    · simp [InMemoryDatabase.setEntry, h, InMemoryDatabase.get, ih]

theorem InMemoryDatabase.get_setEntry_ne {α : Type} (c : InMemoryDatabase α)
    (k k' : String) (v : Entity α) (h : k' ≠ k) :
    InMemoryDatabase.get (InMemoryDatabase.setEntry c k v) k' =
      InMemoryDatabase.get c k' := by
  induction c with
  | nil => simp [InMemoryDatabase.setEntry, InMemoryDatabase.get, Ne.symm h]
  | cons hd tl ih =>
    obtain ⟨k0, v0⟩ := hd
    by_cases hk : k0 = k
    · subst hk
      simp [InMemoryDatabase.setEntry, InMemoryDatabase.get, Ne.symm h]
    · simp [InMemoryDatabase.setEntry, hk, InMemoryDatabase.get, ih]

theorem InMemoryDatabase.mem_setEntry {α : Type} {c : InMemoryDatabase α}
    {k : String} {v : Entity α} {x : String × Entity α}
    (hx : x ∈ InMemoryDatabase.setEntry c k v) : x = (k, v) ∨ x ∈ c := by
  induction c with
  | nil => simpa [InMemoryDatabase.setEntry] using hx
  | cons hd tl ih =>
    obtain ⟨k0, v0⟩ := hd
    by_cases hk : k0 = k
    · simp only [InMemoryDatabase.setEntry, hk, if_pos rfl] at hx
      rcases List.mem_cons.1 hx with h | h
      · exact Or.inl h
      · exact Or.inr (List.mem_cons_of_mem _ h)
    · simp only [InMemoryDatabase.setEntry, hk, if_neg hk] at hx
      rcases List.mem_cons.1 hx with h | h
      · exact Or.inr (h ▸ List.mem_cons_self _ _)
      · rcases ih h with h' | h'
        · exact Or.inl h'
        · exact Or.inr (List.mem_cons_of_mem _ h')

theorem InMemoryDatabase.get_mem {α : Type} {c : InMemoryDatabase α}
    {k : String} {e : Entity α} (h : InMemoryDatabase.get c k = some e) :
    (k, e) ∈ c := by
  induction c with
  | nil => simp [InMemoryDatabase.get] at h
  | cons hd tl ih =>
    obtain ⟨k0, v0⟩ := hd
    by_cases hk : k0 = k
    · subst hk
      simp [InMemoryDatabase.get] at h
      exact h ▸ List.mem_cons_self _ _
    · simp [InMemoryDatabase.get, hk] at h
      exact List.mem_cons_of_mem _ (ih h)

theorem InMemoryDatabase.get_update_snd {α : Type} (c : InMemoryDatabase α)
    (k : String) (f : α → α) (now : Nat) (pid : String) :
    InMemoryDatabase.get (InMemoryDatabase.update c k f now).2 pid =
      if pid = k then
        (InMemoryDatabase.get c k).map (fun e => ⟨e.id, e.createdAt, now, f e.payload⟩)
      else InMemoryDatabase.get c pid := by
  cases hg : InMemoryDatabase.get c k with
  | none =>
    simp only [InMemoryDatabase.update, hg, Option.map_none']
    split
    · next h => subst h; exact hg
    · rfl
  | some e =>
    simp only [InMemoryDatabase.update, hg, Option.map_some']
    split
    · next h => subst h; exact InMemoryDatabase.get_setEntry_self _ _ _
    · next h => exact InMemoryDatabase.get_setEntry_ne _ _ _ _ h

theorem InMemoryDatabase.forall_setEntry {α : Type} {P : Entity α → Prop}
    {c : InMemoryDatabase α} {k : String} {v : Entity α}
    (hc : ∀ pr ∈ c, P pr.2) (hv : P v) :
    ∀ pr ∈ InMemoryDatabase.setEntry c k v, P pr.2 := by
  intro pr hpr
  rcases InMemoryDatabase.mem_setEntry hpr with h | h
  · rw [h]; exact hv
  · exact hc pr h

theorem InMemoryDatabase.forall_update {α : Type} {P : Entity α → Prop}
    {c : InMemoryDatabase α} {k : String} {f : α → α} {now : Nat}
    (hc : ∀ pr ∈ c, P pr.2)
    (hf : ∀ e, InMemoryDatabase.get c k = some e →
      P ⟨e.id, e.createdAt, now, f e.payload⟩) :
    ∀ pr ∈ (InMemoryDatabase.update c k f now).2, P pr.2 := by
  cases hg : InMemoryDatabase.get c k with
  | none => simpa [InMemoryDatabase.update, hg] using hc
  | some e =>
    simp only [InMemoryDatabase.update, hg]
    exact InMemoryDatabase.forall_setEntry hc (hf e hg)

theorem InMemoryDatabase.findBy_eq_nil {α β : Type} [DecidableEq β]
    {c : InMemoryDatabase α} {proj : Entity α → β} {v : β}
    (h : ∀ pr ∈ c, proj pr.2 ≠ v) : InMemoryDatabase.findBy c proj v = [] := by
  induction c with
  | nil => rfl
  | cons hd tl ih =>
    have hhd : proj hd.2 ≠ v := h hd (List.mem_cons_self _ _)
    have htl : ∀ pr ∈ tl, proj pr.2 ≠ v := fun pr hpr => h pr (List.mem_cons_of_mem _ hpr)
    simpa [InMemoryDatabase.findBy, InMemoryDatabase.getAll, List.filter_cons, hhd]
      using ih htl

theorem InMemoryDatabase.findBy_setEntry_unique {α β : Type} [DecidableEq β]
    (c : InMemoryDatabase α) (k : String) (v : Entity α)
    (proj : Entity α → β) (tv : β)
    (hold : ∀ pr ∈ c, proj pr.2 ≠ tv) (hv : proj v = tv) :
    InMemoryDatabase.findBy (InMemoryDatabase.setEntry c k v) proj tv = [v] := by
  induction c with
  | nil => simp [InMemoryDatabase.setEntry, InMemoryDatabase.findBy,
      InMemoryDatabase.getAll, List.filter_cons, hv]
  | cons hd tl ih =>
    obtain ⟨k0, v0⟩ := hd
    have hhd : proj v0 ≠ tv := hold (k0, v0) (List.mem_cons_self _ _)
    have htl : ∀ pr ∈ tl, proj pr.2 ≠ tv :=
      fun pr hpr => hold pr (List.mem_cons_of_mem _ hpr)
    by_cases hk : k0 = k
    · simp [InMemoryDatabase.setEntry, hk, InMemoryDatabase.findBy,
        InMemoryDatabase.getAll, List.filter_cons, hv,
        InMemoryDatabase.findBy_eq_nil htl]
      exact fun a x hx => htl (x, a) hx
    · have := ih htl
      simpa [InMemoryDatabase.setEntry, hk, InMemoryDatabase.findBy,
        InMemoryDatabase.getAll, List.filter_cons, hhd] using this

theorem dbWF_update {α : Type} {c : InMemoryDatabase α} (h : dbWF c)
    (k : String) (f : α → α) (now : Nat) :
    dbWF (InMemoryDatabase.update c k f now).2 := by
  cases hg : InMemoryDatabase.get c k with
  | none => simpa [InMemoryDatabase.update, hg] using h
  | some e =>
    have hid : e.id = k := h (k, e) (InMemoryDatabase.get_mem hg)
    simp only [InMemoryDatabase.update, hg]
    intro pr hpr
    rcases InMemoryDatabase.mem_setEntry hpr with hx | hx
    · rw [hx]; exact hid
    · exact h pr hx

theorem foldl_add_eq_sum {γ : Type} (f : γ → ℚ) (l : List γ) (a : ℚ) :
    l.foldl (fun s x => s + f x) a = a + (l.map f).sum := by
  induction l generalizing a with
  | nil => simp
  | cons hd tl ih => simp [ih, add_assoc]

theorem reqQty_cons (it : ReqItem) (rest : List ReqItem) (pid : String) :
    reqQty (it :: rest) pid =
      (if it.productId = pid then it.quantity else 0) + reqQty rest pid := by
  unfold reqQty
  by_cases h : it.productId = pid <;> simp [List.filter_cons, h]

theorem captureItem_update_stock (pdb : InMemoryDatabase ProductData) (k : String)
    (v : ℤ) (now : Nat) (it : ReqItem) :
    captureItem (InMemoryDatabase.update pdb k
      (fun pd => { pd with stock := v }) now).2 it = captureItem pdb it := by
  unfold captureItem
  rw [InMemoryDatabase.get_update_snd]
  by_cases h : it.productId = k
  · subst h
    cases InMemoryDatabase.get pdb it.productId <;> simp
  · simp [h]

theorem priceOf_update_stock (pdb : InMemoryDatabase ProductData) (k : String)
    (v : ℤ) (now : Nat) (pid : String) :
    priceOf (InMemoryDatabase.update pdb k
      (fun pd => { pd with stock := v }) now).2 pid = priceOf pdb pid := by
  unfold priceOf
  rw [InMemoryDatabase.get_update_snd]
  by_cases h : pid = k
  · subst h
    cases InMemoryDatabase.get pdb pid <;> simp
  · simp [h]

theorem createOrderLoop_ok (items : List ReqItem) :
    ∀ (pdb : InMemoryDatabase ProductData) (acc : List OrderItem) (total : ℚ)
      (now : Nat), dbWF pdb →
      (OrderService.createOrderLoop pdb items acc total now).1 = none →
      ((∀ pid (p : Entity ProductData), InMemoryDatabase.get pdb pid = some p →
          ∃ p', InMemoryDatabase.get
              (OrderService.createOrderLoop pdb items acc total now).2.1 pid = some p' ∧
            p'.payload.stock = p.payload.stock - reqQty items pid ∧
            p'.payload.price = p.payload.price ∧
            p'.payload.name = p.payload.name ∧ p'.id = p.id) ∧
        (OrderService.createOrderLoop pdb items acc total now).2.2.1 =
          acc ++ items.map (captureItem pdb) ∧
        (OrderService.createOrderLoop pdb items acc total now).2.2.2 =
          total + (items.map (fun it => priceOf pdb it.productId * (it.quantity : ℚ))).sum) := by
  induction items with
  | nil =>
    intro pdb acc total now _ _
    refine ⟨?_, by simp [OrderService.createOrderLoop],
      by simp [OrderService.createOrderLoop]⟩
    intro pid p hp
    refine ⟨p, ?_, by simp [reqQty], rfl, rfl, rfl⟩
    simpa [OrderService.createOrderLoop] using hp
  | cons it rest ih =>
    intro pdb acc total now hwf h
    cases hg : InMemoryDatabase.get pdb it.productId with
    | none => simp [OrderService.createOrderLoop, hg] at h
    | some product =>
      by_cases hst : product.payload.stock < it.quantity
      · simp [OrderService.createOrderLoop, hg, hst] at h
      · have hid : product.id = it.productId :=
          hwf (it.productId, product) (InMemoryDatabase.get_mem hg)
        have hloop : OrderService.createOrderLoop pdb (it :: rest) acc total now =
            OrderService.createOrderLoop
              ((InMemoryDatabase.update pdb product.id
                (fun pd => { pd with
                  stock := product.payload.stock - it.quantity }) now).2)
              rest
              (acc ++ [⟨product.id, product.payload.name, it.quantity,
                product.payload.price⟩])
              (total + product.payload.price * (it.quantity : ℚ)) now := by
          simp [OrderService.createOrderLoop, hg, hst]
        rw [hloop] at h ⊢
        have hwf' : dbWF (InMemoryDatabase.update pdb product.id
            (fun pd => { pd with
              stock := product.payload.stock - it.quantity }) now).2 :=
          dbWF_update hwf _ _ _
        obtain ⟨IH1, IH2, IH3⟩ := ih _ _ _ now hwf' h
        have hcap : (captureItem (InMemoryDatabase.update pdb product.id
            (fun pd => { pd with
              stock := product.payload.stock - it.quantity }) now).2) =
            captureItem pdb :=
          funext (fun it' => captureItem_update_stock pdb product.id _ now it')
        have hpr : ∀ pid, priceOf (InMemoryDatabase.update pdb product.id
            (fun pd => { pd with
              stock := product.payload.stock - it.quantity }) now).2 pid =
            priceOf pdb pid :=
          fun pid => priceOf_update_stock pdb product.id _ now pid
        refine ⟨?_, ?_, ?_⟩
        · intro pid p hp
          by_cases hpid : pid = it.productId
          · have hpprod : p = product := by
              rw [hpid, hg] at hp
              exact (Option.some.inj hp).symm
            have hget' : InMemoryDatabase.get
                (InMemoryDatabase.update pdb product.id
                  (fun pd => { pd with
                    stock := product.payload.stock - it.quantity }) now).2 pid =
                some ⟨product.id, product.createdAt, now,
                  { product.payload with
                    stock := product.payload.stock - it.quantity }⟩ := by
              rw [InMemoryDatabase.get_update_snd, hid, if_pos hpid, hg]
              simp [hid]
            obtain ⟨p', h1, h2, h3, h4, h5⟩ := IH1 pid _ hget'
            refine ⟨p', h1, ?_, ?_, ?_, ?_⟩
            · rw [h2, reqQty_cons, if_pos hpid.symm, hpprod]
              dsimp only
              omega
            · rw [h3, hpprod]
            · rw [h4, hpprod]
            · rw [h5, hpprod]
          · have hget' : InMemoryDatabase.get
                (InMemoryDatabase.update pdb product.id
                  (fun pd => { pd with
                    stock := product.payload.stock - it.quantity }) now).2 pid =
                some p := by
              rw [InMemoryDatabase.get_update_snd, hid, if_neg hpid]
              exact hp
            obtain ⟨p', h1, h2, h3, h4, h5⟩ := IH1 pid p hget'
            refine ⟨p', h1, ?_, h3, h4, h5⟩
            rw [h2, reqQty_cons, if_neg (fun hh => hpid hh.symm)]
            omega
        · rw [IH2, hcap]
          simp [captureItem, hg]
        · rw [IH3]
          have : (rest.map (fun it' => priceOf (InMemoryDatabase.update pdb product.id
              (fun pd => { pd with
                stock := product.payload.stock - it.quantity }) now).2 it'.productId *
                (it'.quantity : ℚ))).sum =
              (rest.map (fun it' => priceOf pdb it'.productId * (it'.quantity : ℚ))).sum := by
            congr 1
            exact List.map_congr_left (fun it' _ => by rw [hpr])
          rw [this]
          simp [priceOf, hg]
          ring

theorem createOrderLoop_stockInv (items : List ReqItem) :
    ∀ (pdb : InMemoryDatabase ProductData) (acc : List OrderItem) (total : ℚ)
      (now : Nat), stockInvP pdb →
      stockInvP (OrderService.createOrderLoop pdb items acc total now).2.1 := by
  induction items with
  | nil =>
    intro pdb acc total now hs
    simpa [OrderService.createOrderLoop] using hs
  | cons it rest ih =>
    intro pdb acc total now hs
    cases hg : InMemoryDatabase.get pdb it.productId with
    | none => simpa [OrderService.createOrderLoop, hg] using hs
    | some product =>
      by_cases hst : product.payload.stock < it.quantity
      · simpa [OrderService.createOrderLoop, hg, hst] using hs
      · have hstep : stockInvP (InMemoryDatabase.update pdb product.id
            (fun pd => { pd with
              stock := product.payload.stock - it.quantity }) now).2 := by
          refine InMemoryDatabase.forall_update
            (P := fun e : Entity ProductData => 0 ≤ e.payload.stock)
            (fun pr hpr => hs pr hpr) ?_
          intro e _
          dsimp only
          omega
        simpa [OrderService.createOrderLoop, hg, hst] using
          ih _ (acc ++ [⟨product.id, product.payload.name, it.quantity,
            product.payload.price⟩])
            (total + product.payload.price * (it.quantity : ℚ)) now hstep

theorem createOrderLoop_itemsQty (items : List ReqItem) :
    ∀ (pdb : InMemoryDatabase ProductData) (acc : List OrderItem) (total : ℚ)
      (now : Nat),
      (∀ it ∈ items, 0 ≤ it.quantity) → (∀ oi ∈ acc, 0 ≤ oi.quantity) →
      ∀ oi ∈ (OrderService.createOrderLoop pdb items acc total now).2.2.1,
        0 ≤ oi.quantity := by
  induction items with
  | nil =>
    intro pdb acc total now _ hacc
    simpa [OrderService.createOrderLoop] using hacc
  | cons it rest ih =>
    intro pdb acc total now hits hacc
    have hit : 0 ≤ it.quantity := hits it (List.mem_cons_self _ _)
    have hrest : ∀ x ∈ rest, 0 ≤ x.quantity :=
      fun x hx => hits x (List.mem_cons_of_mem _ hx)
    cases hg : InMemoryDatabase.get pdb it.productId with
    | none => simpa [OrderService.createOrderLoop, hg] using hacc
    | some product =>
      by_cases hst : product.payload.stock < it.quantity
      · simpa [OrderService.createOrderLoop, hg, hst] using hacc
      · have hacc' : ∀ oi ∈ acc ++ [(⟨product.id, product.payload.name,
            it.quantity, product.payload.price⟩ : OrderItem)], 0 ≤ oi.quantity := by
          intro oi hoi
          rcases List.mem_append.1 hoi with h | h
          · exact hacc oi h
          · rcases List.mem_singleton.1 h with rfl
            exact hit
        simpa [OrderService.createOrderLoop, hg, hst] using
          ih _ _ (total + product.payload.price * (it.quantity : ℚ)) now hrest hacc'

theorem restoreStock_stockInv (items : List OrderItem) :
    ∀ (pdb : InMemoryDatabase ProductData) (now : Nat), stockInvP pdb →
      (∀ oi ∈ items, 0 ≤ oi.quantity) →
      stockInvP (OrderService.restoreStock pdb items now) := by
  induction items with
  | nil =>
    intro pdb now hs _
    simpa [OrderService.restoreStock] using hs
  | cons oi rest ih =>
    intro pdb now hs hq
    have hqi : 0 ≤ oi.quantity := hq oi (List.mem_cons_self _ _)
    have hqrest : ∀ x ∈ rest, 0 ≤ x.quantity :=
      fun x hx => hq x (List.mem_cons_of_mem _ hx)
    have hstep : OrderService.restoreStock pdb (oi :: rest) now =
        OrderService.restoreStock
          (match InMemoryDatabase.get pdb oi.productId with
            | none => pdb
            | some product =>
              (InMemoryDatabase.update pdb product.id
                (fun pd => { pd with
                  stock := product.payload.stock + oi.quantity }) now).2)
          rest now := by
      simp [OrderService.restoreStock]
    rw [hstep]
    cases hg : InMemoryDatabase.get pdb oi.productId with
    | none => exact ih pdb now hs hqrest
    | some product =>
      have hp0 : 0 ≤ product.payload.stock :=
        hs (oi.productId, product) (InMemoryDatabase.get_mem hg)
      refine ih _ now ?_ hqrest
      refine InMemoryDatabase.forall_update
        (P := fun e : Entity ProductData => 0 ≤ e.payload.stock)
        (fun pr hpr => hs pr hpr) ?_
      intro e _
      dsimp only
      omega

theorem itemsInvP_update_keep (c : InMemoryDatabase OrderData) (k : String)
    (f : OrderData → OrderData) (now : Nat) (h : itemsInvP c)
    (hf : ∀ od, (f od).items = od.items) :
    itemsInvP (InMemoryDatabase.update c k f now).2 := by
  refine InMemoryDatabase.forall_update
    (P := fun e : Entity OrderData => ∀ oi ∈ e.payload.items, 0 ≤ oi.quantity)
    (fun pr hpr => h pr hpr) ?_
  intro e he
  dsimp only
  rw [hf]
  exact h (k, e) (InMemoryDatabase.get_mem he)

theorem stockInvP_update_keep (c : InMemoryDatabase ProductData) (k : String)
    (f : ProductData → ProductData) (now : Nat) (h : stockInvP c)
    (hf : ∀ pd, (f pd).stock = pd.stock) :
    stockInvP (InMemoryDatabase.update c k f now).2 := by
  refine InMemoryDatabase.forall_update
    (P := fun e : Entity ProductData => 0 ≤ e.payload.stock)
    (fun pr hpr => h pr hpr) ?_
  intro e he
  dsimp only
  rw [hf]
  exact h (k, e) (InMemoryDatabase.get_mem he)

theorem SInv_applyOp {s : SState} (hs : SInv s) {op : Op}
    (hop : goodOp op = true) : SInv (applyOp s op) := by
  obtain ⟨hstock, hitems⟩ := hs
  cases op with
  | registerUser ud g t =>
    simp only [applyOp, UserService.registerUser]
    split
    · exact ⟨hstock, hitems⟩
    · exact ⟨hstock, hitems⟩
  | updateUserProfile uid u t =>
    simp only [applyOp, UserService.updateUserProfile]
    cases (InMemoryDatabase.update s.usersDb uid (UserUpdate.apply u) t).1 with
    | none => exact ⟨hstock, hitems⟩
    | some x => exact ⟨hstock, hitems⟩
  | addProduct pd g t =>
    simp only [applyOp, ProductService.addProduct]
    split
    · next hc => exact ⟨hstock, hitems⟩
    · next hc =>
      have h0 : 0 ≤ pd.stock := by
        push_neg at hc
        omega
      refine ⟨?_, hitems⟩
      exact InMemoryDatabase.forall_setEntry
        (P := fun e : Entity ProductData => 0 ≤ e.payload.stock)
        (fun pr hpr => hstock pr hpr) h0
  | updateProduct pid u t =>
    have hstk : ∀ pd : ProductData, 0 ≤ pd.stock →
        0 ≤ (ProductUpdate.apply u pd).stock := by
      intro pd h0
      cases hu : u.stock with
      | none => simpa [ProductUpdate.apply, hu] using h0
      | some q =>
        have hq : (0:ℤ) ≤ q := by simpa [goodOp, hu] using hop
        simpa [ProductUpdate.apply, hu] using hq
    simp only [applyOp, ProductService.updateProduct]
    cases (InMemoryDatabase.update s.productsDb pid (ProductUpdate.apply u) t).1 with
    | none => exact ⟨hstock, hitems⟩
    | some up =>
      refine ⟨?_, hitems⟩
      refine InMemoryDatabase.forall_update
        (P := fun e : Entity ProductData => 0 ≤ e.payload.stock)
        (fun pr hpr => hstock pr hpr) ?_
      intro e he
      exact hstk e.payload (hstock (pid, e) (InMemoryDatabase.get_mem he))
  | deleteProduct pid aid =>
    have hfilter : stockInvP
        (s.productsDb.filter (fun pr => decide (pr.1 ≠ pid))) :=
      fun pr hpr => hstock pr (List.mem_of_mem_filter hpr)
    simp only [applyOp, ProductService.deleteProduct, InMemoryDatabase.del]
    split
    · exact ⟨hstock, hitems⟩
    · split
      · exact ⟨hfilter, hitems⟩
      · exact ⟨hfilter, hitems⟩
  | createOrder uid its addr pm g t =>
    have hq : ∀ it ∈ its, 0 ≤ it.quantity := by
      intro it hit
      have hall := hop
      simp only [goodOp, List.all_eq_true, decide_eq_true_eq] at hall
      exact hall it hit
    simp only [applyOp, OrderService.createOrder]
    split
    · exact ⟨hstock, hitems⟩
    · rcases hl : OrderService.createOrderLoop s.productsDb its [] 0 t with
        ⟨errOpt, pdb', its', tot⟩
      have hpdb : stockInvP pdb' := by
        have hh := createOrderLoop_stockInv its s.productsDb [] 0 t hstock
        rw [hl] at hh
        exact hh
      have hits' : ∀ oi ∈ its', 0 ≤ oi.quantity := by
        have hh := createOrderLoop_itemsQty its s.productsDb [] 0 t hq
          (fun oi hoi => absurd hoi (List.not_mem_nil oi))
        rw [hl] at hh
        exact hh
      cases errOpt with
      | some e => exact ⟨hpdb, hitems⟩
      | none =>
        refine ⟨hpdb, ?_⟩
        refine InMemoryDatabase.forall_setEntry
          (P := fun e : Entity OrderData => ∀ oi ∈ e.payload.items, 0 ≤ oi.quantity)
          (fun pr hpr => hitems pr hpr) ?_
        intro oi hoi
        exact hits' oi hoi
  | updateOrderStatus oid st t =>
    simp only [applyOp, OrderService.updateOrderStatus]
    cases hg : InMemoryDatabase.get s.ordersDb oid with
    | none =>
      rw [show InMemoryDatabase.update s.ordersDb oid
          (fun od => { od with status := st }) t = (none, s.ordersDb) from by
        simp [InMemoryDatabase.update, hg]]
      exact ⟨hstock, hitems⟩
    | some e =>
      have hupd : InMemoryDatabase.update s.ordersDb oid
          (fun od => { od with status := st }) t =
          (some ⟨e.id, e.createdAt, t, { e.payload with status := st }⟩,
           InMemoryDatabase.setEntry s.ordersDb oid
             ⟨e.id, e.createdAt, t, { e.payload with status := st }⟩) := by
        simp [InMemoryDatabase.update, hg]
      rw [hupd]
      dsimp only
      have hq : ∀ oi ∈ e.payload.items, 0 ≤ oi.quantity :=
        hitems (oid, e) (InMemoryDatabase.get_mem hg)
      have hitems1 : itemsInvP (InMemoryDatabase.setEntry s.ordersDb oid
          ⟨e.id, e.createdAt, t, { e.payload with status := st }⟩) := by
        refine InMemoryDatabase.forall_setEntry
          (P := fun x : Entity OrderData => ∀ oi ∈ x.payload.items, 0 ≤ oi.quantity)
          (fun pr hpr => hitems pr hpr) ?_
        intro oi hoi
        exact hq oi hoi
      split
      · exact ⟨hstock, itemsInvP_update_keep _ _ _ _ hitems1 (fun od => rfl)⟩
      · split
        · exact ⟨hstock, itemsInvP_update_keep _ _ _ _ hitems1 (fun od => rfl)⟩
        · split
          · exact ⟨restoreStock_stockInv _ _ _ hstock hq, hitems1⟩
          · exact ⟨hstock, hitems1⟩
  | processPayment oid uid amt m txn g gw t =>
    simp only [applyOp, PaymentService.processPayment]
    split
    · exact ⟨hstock, hitems⟩
    · split
      · exact ⟨hstock, hitems⟩
      · split
        · exact ⟨hstock, itemsInvP_update_keep _ _ _ _ hitems (fun od => rfl)⟩
        · exact ⟨hstock, hitems⟩
  | submitReview rd g t =>
    simp only [applyOp, ReviewService.submitReview]
    split
    · exact ⟨hstock, hitems⟩
    · split
      · exact ⟨hstock, hitems⟩
      · exact ⟨stockInvP_update_keep _ _ _ _ hstock (fun pd => rfl), hitems⟩

theorem SInv_foldl : ∀ (ops : List Op), ops.all goodOp = true →
    ∀ s : SState, SInv s → SInv (ops.foldl applyOp s) := by
  intro ops
  induction ops with
  | nil => exact fun _ s hs => hs
  | cons op rest ih =>
    intro h s hs
    rw [List.all_cons, Bool.and_eq_true] at h
    rw [List.foldl_cons]
    exact ih h.2 (applyOp s op) (SInv_applyOp hs h.1)

/-- C1: the claim says a failing `createOrder` leaves every product's
stock unchanged. The code instead decrements stock item by item and
returns early on the first failing item without rolling back: ordering
2 of product `pA` (stock 5) and 5 of product `pB` (stock 1) fails, yet
`pA`'s stock has dropped from 5 to 3. -/
theorem createOrder_failure_keeps_partial_decrement :
    (OrderService.createOrder sC1 "u1" [⟨"pA", 2⟩, ⟨"pB", 5⟩] addrX
      PaymentMethod.CreditCard "o1" 7).1.success = false ∧
    stockOf sC1 "pA" = some 5 ∧
    stockOf (OrderService.createOrder sC1 "u1" [⟨"pA", 2⟩, ⟨"pB", 5⟩] addrX
      PaymentMethod.CreditCard "o1" 7).2 "pA" = some 3 := by
  refine ⟨?_, ?_, ?_⟩ <;> decide

/-- C2: the claim says cancelling an already-Cancelled order must not
increase stock again. The code re-runs the stock-restoration loop on
every transition to Cancelled: with product `pA` at stock 5 (already
restored) and order `o1` (quantity 2) already Cancelled, a second
`updateOrderStatus(o1, Cancelled)` raises the stock to 7. -/
theorem cancel_twice_restores_twice :
    (OrderService.updateOrderStatus sC2 "o1" OrderStatus.Cancelled 9).1.success
      = true ∧
    stockOf sC2 "pA" = some 5 ∧
    stockOf (OrderService.updateOrderStatus sC2 "o1"
      OrderStatus.Cancelled 9).2 "pA" = some 7 := by
  refine ⟨?_, ?_, ?_⟩ <;> decide

/-- C3 counterexample: the claim quantifies over every sequence of
service operations, but `updateProduct` performs no stock validation, so
the reachable state after `addProduct` (stock 5) followed by
`updateProduct` with `stock := -1` has a product with negative stock. -/
theorem reachable_state_with_negative_stock :
    stockOf (List.foldl applyOp initState opsC3) "p1" = some (-1) ∧
    ¬ stockInv (List.foldl applyOp initState opsC3) := by
  refine ⟨by decide, ?_⟩
  intro hinv
  have h := hinv ("p1",
    ⟨"p1", 0, 1, ⟨"A", "d", 10, ProductCategory.Electronics, -1, "img", "s1",
      none, none⟩⟩) (by decide)
  simp at h

/-- C3 (amended): for every sequence of service operations in which each
`updateProduct` call's stock field (when present) is nonnegative and each
`createOrder` line item requests a nonnegative quantity, every product's
stock in the resulting state is nonnegative. -/
theorem stock_never_negative_of_goodOps (ops : List Op)
    (h : ops.all goodOp = true) :
    stockInv (List.foldl applyOp initState ops) :=
  (SInv_foldl ops h initState
    ⟨fun pr hpr => absurd hpr (List.not_mem_nil pr),
     fun pr hpr => absurd hpr (List.not_mem_nil pr)⟩).1

theorem stock_never_negative_of_goodOps_witness :
    opsC3good.all goodOp = true ∧
    stockInv (List.foldl applyOp initState opsC3good) :=
  ⟨by decide, stock_never_negative_of_goodOps opsC3good (by decide)⟩

/-- C9 counterexample: the claim says two distinct `add` calls on one
repository instance always return records with distinct ids. The
repository stores whatever generated id it is given without any
uniqueness check, so when the `Date.now()`/`Math.random()` id source
produces the same string twice, the two returned records share one id
(and the second silently overwrites the first). -/
theorem add_twice_same_generated_id :
    (InMemoryDatabase.add
      (InMemoryDatabase.add ([] : InMemoryDatabase ProductData)
        prodA.payload "entity_1_abcdefg" 1).2
      prodB.payload "entity_1_abcdefg" 2).1.id =
    (InMemoryDatabase.add ([] : InMemoryDatabase ProductData)
      prodA.payload "entity_1_abcdefg" 1).1.id ∧
    ((InMemoryDatabase.add
      (InMemoryDatabase.add ([] : InMemoryDatabase ProductData)
        prodA.payload "entity_1_abcdefg" 1).2
      prodB.payload "entity_1_abcdefg" 2).2).length = 1 := by
  refine ⟨?_, ?_⟩ <;> decide

/-- C9 (amended): the id of the record returned by `add` is exactly the
generated id string supplied for that call, and the repository adds no
uniqueness check of its own; hence two `add` calls return records with
distinct ids precisely when their generated id strings differ — the
guarantee holds only when the `Date.now()`/`Math.random()` id source
never repeats an output for the instance. -/
theorem add_returns_generated_id_distinct_when_fresh {α : Type}
    (c : InMemoryDatabase α) (x y : α) (g1 g2 : String) (t1 t2 : Nat)
    (h : g1 ≠ g2) :
    (InMemoryDatabase.add c x g1 t1).1.id = g1 ∧
    (InMemoryDatabase.add (InMemoryDatabase.add c x g1 t1).2 y g2 t2).1.id = g2 ∧
    (InMemoryDatabase.add c x g1 t1).1.id ≠
      (InMemoryDatabase.add (InMemoryDatabase.add c x g1 t1).2 y g2 t2).1.id :=
  ⟨rfl, rfl, h⟩

theorem add_returns_generated_id_distinct_when_fresh_witness :
    ("entity_1_aaa" ≠ "entity_2_bbb") ∧
    ((InMemoryDatabase.add ([] : InMemoryDatabase ProductData)
        prodA.payload "entity_1_aaa" 1).1.id = "entity_1_aaa" ∧
      (InMemoryDatabase.add
        (InMemoryDatabase.add ([] : InMemoryDatabase ProductData)
          prodA.payload "entity_1_aaa" 1).2
        prodB.payload "entity_2_bbb" 2).1.id = "entity_2_bbb" ∧
      (InMemoryDatabase.add ([] : InMemoryDatabase ProductData)
        prodA.payload "entity_1_aaa" 1).1.id ≠
        (InMemoryDatabase.add
          (InMemoryDatabase.add ([] : InMemoryDatabase ProductData)
            prodA.payload "entity_1_aaa" 1).2
          prodB.payload "entity_2_bbb" 2).1.id) :=
  ⟨by decide,
   add_returns_generated_id_distinct_when_fresh [] prodA.payload prodB.payload
     "entity_1_aaa" "entity_2_bbb" 1 2 (by decide)⟩

/-- C5: whenever the order is absent, belongs to a different user, has a
mismatched amount, or is already Paid, `processPayment` returns the
failure envelope and leaves the whole state (in particular the order
record) unchanged; an order that was Unpaid therefore stays Unpaid. -/
theorem processPayment_invalid_leaves_order_unchanged (s : SState)
    (orderId userId : String) (amount : ℚ) (method : PaymentMethod)
    (txnId genId : String) (gw : Bool) (now : Nat)
    (h : InMemoryDatabase.get s.ordersDb orderId = none ∨
      ∃ o, InMemoryDatabase.get s.ordersDb orderId = some o ∧
        (o.payload.userId ≠ userId ∨ o.payload.totalAmount ≠ amount ∨
          o.payload.paymentStatus = PaymentStatus.Paid)) :
    PaymentService.processPayment s orderId userId amount method txnId genId
        gw now =
      (ApiResponse.err "Invalid order or order already paid.", s) ∧
    ∀ o, InMemoryDatabase.get s.ordersDb orderId = some o →
      o.payload.paymentStatus ≠ PaymentStatus.Paid →
      (InMemoryDatabase.get
        (PaymentService.processPayment s orderId userId amount method txnId
          genId gw now).2.ordersDb orderId).map
        (fun e => e.payload.paymentStatus) = some PaymentStatus.Unpaid := by
  have key : PaymentService.processPayment s orderId userId amount method txnId
      genId gw now = (ApiResponse.err "Invalid order or order already paid.", s) := by
    rcases h with hnone | ⟨o, ho, hcond⟩
    · simp [PaymentService.processPayment, hnone]
    · simp only [PaymentService.processPayment, ho]
      rw [if_pos hcond]
  refine ⟨key, ?_⟩
  intro o ho hnp
  rw [key]
  dsimp only
  rw [ho]
  cases hps : o.payload.paymentStatus with
  | Paid => exact absurd hps hnp
  | Unpaid => simp [hps]

theorem processPayment_invalid_leaves_order_unchanged_witness :
    (InMemoryDatabase.get sC5.ordersDb "o1" = some orderC5 ∧
      orderC5.payload.totalAmount ≠ (19 : ℚ)) ∧
    (PaymentService.processPayment sC5 "o1" "u1" 19 PaymentMethod.CreditCard
        "txn_1_x" "pay_1" true 4 =
      (ApiResponse.err "Invalid order or order already paid.", sC5) ∧
    ∀ o, InMemoryDatabase.get sC5.ordersDb "o1" = some o →
      o.payload.paymentStatus ≠ PaymentStatus.Paid →
      (InMemoryDatabase.get
        (PaymentService.processPayment sC5 "o1" "u1" 19 PaymentMethod.CreditCard
          "txn_1_x" "pay_1" true 4).2.ordersDb "o1").map
        (fun e => e.payload.paymentStatus) = some PaymentStatus.Unpaid) :=
  ⟨⟨by decide, by decide⟩,
   processPayment_invalid_leaves_order_unchanged sC5 "o1" "u1" 19
     PaymentMethod.CreditCard "txn_1_x" "pay_1" true 4
     (Or.inr ⟨orderC5, by decide, Or.inr (Or.inl (by decide))⟩)⟩

/-- C10: when the validity check passes but the gateway decision is
Failure, `processPayment` records a Failed transaction, returns it inside
the failure envelope, and leaves the orders store (and every other store
except payments) entirely unchanged. -/
theorem processPayment_gateway_failure_effects (s : SState)
    (orderId userId : String) (amount : ℚ) (method : PaymentMethod)
    (txnId genId : String) (now : Nat) (o : Entity OrderData)
    (ho : InMemoryDatabase.get s.ordersDb orderId = some o)
    (huser : o.payload.userId = userId)
    (hamt : o.payload.totalAmount = amount)
    (hunpaid : o.payload.paymentStatus = PaymentStatus.Unpaid) :
    (PaymentService.processPayment s orderId userId amount method txnId genId
      false now).1 =
      ApiResponse.errData "Payment failed."
        ⟨genId, now, now, ⟨orderId, userId, amount, method, txnId,
          TxnStatus.Failed⟩⟩ ∧
    InMemoryDatabase.get (PaymentService.processPayment s orderId userId amount
      method txnId genId false now).2.paymentsDb genId =
      some ⟨genId, now, now, ⟨orderId, userId, amount, method, txnId,
        TxnStatus.Failed⟩⟩ ∧
    (PaymentService.processPayment s orderId userId amount method txnId genId
      false now).2.ordersDb = s.ordersDb ∧
    (PaymentService.processPayment s orderId userId amount method txnId genId
      false now).2.usersDb = s.usersDb ∧
    (PaymentService.processPayment s orderId userId amount method txnId genId
      false now).2.productsDb = s.productsDb ∧
    (PaymentService.processPayment s orderId userId amount method txnId genId
      false now).2.reviewsDb = s.reviewsDb := by
  have hcond : ¬(o.payload.userId ≠ userId ∨ o.payload.totalAmount ≠ amount ∨
      o.payload.paymentStatus = PaymentStatus.Paid) := by
    simp [huser, hamt, hunpaid]
  have key : PaymentService.processPayment s orderId userId amount method txnId
      genId false now =
      (ApiResponse.errData "Payment failed."
        ⟨genId, now, now, ⟨orderId, userId, amount, method, txnId,
          TxnStatus.Failed⟩⟩,
       { s with paymentsDb := (InMemoryDatabase.setEntry s.paymentsDb genId
          ⟨genId, now, now, ⟨orderId, userId, amount, method, txnId,
            TxnStatus.Failed⟩⟩) }) := by
    simp only [PaymentService.processPayment, ho]
    rw [if_neg hcond]
    simp [InMemoryDatabase.add]
  rw [key]
  exact ⟨rfl, InMemoryDatabase.get_setEntry_self _ _ _, rfl, rfl, rfl, rfl⟩

theorem processPayment_gateway_failure_effects_witness :
    (InMemoryDatabase.get sC5.ordersDb "o1" = some orderC5 ∧
      orderC5.payload.userId = "u1" ∧ orderC5.payload.totalAmount = (20 : ℚ) ∧
      orderC5.payload.paymentStatus = PaymentStatus.Unpaid) ∧
    ((PaymentService.processPayment sC5 "o1" "u1" 20 PaymentMethod.CreditCard
      "txn_1_x" "pay_1" false 4).1 =
      ApiResponse.errData "Payment failed."
        ⟨"pay_1", 4, 4, ⟨"o1", "u1", 20, PaymentMethod.CreditCard, "txn_1_x",
          TxnStatus.Failed⟩⟩ ∧
    InMemoryDatabase.get (PaymentService.processPayment sC5 "o1" "u1" 20
      PaymentMethod.CreditCard "txn_1_x" "pay_1" false 4).2.paymentsDb "pay_1" =
      some ⟨"pay_1", 4, 4, ⟨"o1", "u1", 20, PaymentMethod.CreditCard, "txn_1_x",
        TxnStatus.Failed⟩⟩ ∧
    (PaymentService.processPayment sC5 "o1" "u1" 20 PaymentMethod.CreditCard
      "txn_1_x" "pay_1" false 4).2.ordersDb = sC5.ordersDb ∧
    (PaymentService.processPayment sC5 "o1" "u1" 20 PaymentMethod.CreditCard
      "txn_1_x" "pay_1" false 4).2.usersDb = sC5.usersDb ∧
    (PaymentService.processPayment sC5 "o1" "u1" 20 PaymentMethod.CreditCard
      "txn_1_x" "pay_1" false 4).2.productsDb = sC5.productsDb ∧
    (PaymentService.processPayment sC5 "o1" "u1" 20 PaymentMethod.CreditCard
      "txn_1_x" "pay_1" false 4).2.reviewsDb = sC5.reviewsDb) :=
  ⟨⟨by decide, by decide, by decide, by decide⟩,
   processPayment_gateway_failure_effects sC5 "o1" "u1" 20
     PaymentMethod.CreditCard "txn_1_x" "pay_1" 4 orderC5 (by decide)
     (by decide) (by decide) (by decide)⟩

/-- C8: for every stored user, `getUserProfile` and `updateUserProfile`
return the user through `Entity.toSafeUser`, whose result type has no
credential-hash field; replacing the stored hash by any other string does
not change either result. -/
theorem profile_results_strip_password_hash (s : SState) (userId : String)
    (u : Entity UserData) (hu : InMemoryDatabase.get s.usersDb userId = some u) :
    UserService.getUserProfile s userId = ApiResponse.ok u.toSafeUser ∧
    (∀ (upd : UserUpdate) (now : Nat),
      (UserService.updateUserProfile s userId upd now).1 =
        ApiResponse.ok
          (Entity.toSafeUser ⟨u.id, u.createdAt, now,
            UserUpdate.apply upd u.payload⟩)) ∧
    ∀ h : String,
      Entity.toSafeUser ⟨u.id, u.createdAt, u.updatedAt,
        { u.payload with passwordHash := h }⟩ = u.toSafeUser := by
  refine ⟨?_, ?_, ?_⟩
  · simp [UserService.getUserProfile, hu]
  · intro upd now
    simp [UserService.updateUserProfile, InMemoryDatabase.update, hu]
  · intro h
    rfl

theorem profile_results_strip_password_hash_witness :
    InMemoryDatabase.get sC1.usersDb "u1" = some userX ∧
    (UserService.getUserProfile sC1 "u1" = ApiResponse.ok userX.toSafeUser ∧
    (∀ (upd : UserUpdate) (now : Nat),
      (UserService.updateUserProfile sC1 "u1" upd now).1 =
        ApiResponse.ok
          (Entity.toSafeUser ⟨userX.id, userX.createdAt, now,
            UserUpdate.apply upd userX.payload⟩)) ∧
    ∀ h : String,
      Entity.toSafeUser ⟨userX.id, userX.createdAt, userX.updatedAt,
        { userX.payload with passwordHash := h }⟩ = userX.toSafeUser) :=
  ⟨by decide, profile_results_strip_password_hash sC1 "u1" userX (by decide)⟩

/-- C7: after a successful registration of a username, registering any
user with the same username again fails with the Conflict error, leaves
the directory unchanged, and the directory holds exactly one user with
that username. -/
theorem register_duplicate_username_rejected (s : SState) (ud ud2 : UserData)
    (g1 g2 : String) (t1 t2 : Nat) (hun : ud2.username = ud.username)
    (h : (UserService.registerUser s ud g1 t1).1.success = true) :
    (UserService.registerUser (UserService.registerUser s ud g1 t1).2
        ud2 g2 t2).1 = ApiResponse.err "Username already exists." ∧
    (UserService.registerUser (UserService.registerUser s ud g1 t1).2
        ud2 g2 t2).2 = (UserService.registerUser s ud g1 t1).2 ∧
    (InMemoryDatabase.findBy (UserService.registerUser s ud g1 t1).2.usersDb
      (fun e => e.payload.username) ud.username).length = 1 := by
  by_cases hc : (InMemoryDatabase.findBy s.usersDb (fun e => e.payload.username)
      ud.username).length > 0
  · exfalso
    have hfail : (UserService.registerUser s ud g1 t1).1.success = false := by
      simp [UserService.registerUser, hc, ApiResponse.err]
    rw [h] at hfail
    exact Bool.noConfusion hfail
  · have hold : ∀ pr ∈ s.usersDb, pr.2.payload.username ≠ ud.username := by
      intro pr hpr heq
      have hmem : pr.2 ∈ InMemoryDatabase.findBy s.usersDb
          (fun e => e.payload.username) ud.username := by
        simp only [InMemoryDatabase.findBy, InMemoryDatabase.getAll,
          List.mem_filter]
        exact ⟨List.mem_map.2 ⟨pr, hpr, rfl⟩, by simp [heq]⟩
      have hpos : 0 < (InMemoryDatabase.findBy s.usersDb
          (fun e => e.payload.username) ud.username).length :=
        List.length_pos.2 (fun hnil => by
          rw [hnil] at hmem
          exact List.not_mem_nil _ hmem)
      exact hc hpos
    have hs2 : (UserService.registerUser s ud g1 t1).2 =
        { s with usersDb := (InMemoryDatabase.setEntry s.usersDb g1
          ⟨g1, t1, t1, { ud with passwordHash :=
            "hashed_" ++ ud.passwordHash ++ "_" ++ toString t1 }⟩) } := by
      simp [UserService.registerUser, hc, InMemoryDatabase.add]
    have hone : InMemoryDatabase.findBy
        (InMemoryDatabase.setEntry s.usersDb g1
          ⟨g1, t1, t1, { ud with passwordHash :=
            "hashed_" ++ ud.passwordHash ++ "_" ++ toString t1 }⟩)
        (fun e => e.payload.username) ud.username =
        [⟨g1, t1, t1, { ud with passwordHash :=
          "hashed_" ++ ud.passwordHash ++ "_" ++ toString t1 }⟩] :=
      InMemoryDatabase.findBy_setEntry_unique _ _ _ _ _ hold rfl
    refine ⟨?_, ?_, ?_⟩
    · rw [hs2]
      simp [UserService.registerUser, hun, hone]
    · rw [hs2]
      simp [UserService.registerUser, hun, hone]
    · rw [hs2]
      simp [hone]

theorem register_duplicate_username_rejected_witness :
    (UserService.registerUser initState udW "u1" 0).1.success = true ∧
    ((UserService.registerUser (UserService.registerUser initState udW "u1" 0).2
        udW "u2" 5).1 = ApiResponse.err "Username already exists." ∧
    (UserService.registerUser (UserService.registerUser initState udW "u1" 0).2
        udW "u2" 5).2 = (UserService.registerUser initState udW "u1" 0).2 ∧
    (InMemoryDatabase.findBy
      (UserService.registerUser initState udW "u1" 0).2.usersDb
      (fun e => e.payload.username) udW.username).length = 1) :=
  ⟨by decide,
   register_duplicate_username_rejected initState udW udW "u1" "u2" 0 5 rfl
     (by decide)⟩

/-- C6: after a successful `submitReview`, the product's `rating` equals
the arithmetic mean, rounded to one decimal place, of the ratings of all
reviews referencing that product in the post-call state, and its
`reviewsCount` equals their number. -/
theorem submitReview_sets_mean_and_count (s : SState) (rd : ReviewData)
    (genId : String) (now : Nat) (p : Entity ProductData)
    (hp : InMemoryDatabase.get s.productsDb rd.productId = some p)
    (hid : p.id = rd.productId) (hr1 : 1 ≤ rd.rating) (hr5 : rd.rating ≤ 5) :
    (ReviewService.submitReview s rd genId now).1.success = true ∧
    ∃ p', InMemoryDatabase.get
        (ReviewService.submitReview s rd genId now).2.productsDb rd.productId =
        some p' ∧
      p'.payload.rating = some (roundTo1 (meanRating
        (InMemoryDatabase.findBy
          (ReviewService.submitReview s rd genId now).2.reviewsDb
          (fun e => e.payload.productId) rd.productId))) ∧
      p'.payload.reviewsCount = some
        (InMemoryDatabase.findBy
          (ReviewService.submitReview s rd genId now).2.reviewsDb
          (fun e => e.payload.productId) rd.productId).length := by
  have hguard : ¬(rd.rating < 1 ∨ rd.rating > 5) := by
    rw [not_or]
    exact ⟨not_lt.2 hr1, not_lt.2 hr5⟩
  have hsr : ReviewService.submitReview s rd genId now =
      (ApiResponse.ok ⟨genId, now, now, rd⟩,
       { s with
          reviewsDb := (InMemoryDatabase.setEntry s.reviewsDb genId
            ⟨genId, now, now, rd⟩),
          productsDb := (InMemoryDatabase.update s.productsDb p.id
            (fun pd =>
              { pd with
                rating := some (roundTo1 (((InMemoryDatabase.findBy
                    (InMemoryDatabase.setEntry s.reviewsDb genId
                      ⟨genId, now, now, rd⟩)
                    (fun e => e.payload.productId) p.id).foldl
                      (fun sum rv => sum + rv.payload.rating) 0) /
                  (((InMemoryDatabase.findBy
                    (InMemoryDatabase.setEntry s.reviewsDb genId
                      ⟨genId, now, now, rd⟩)
                    (fun e => e.payload.productId) p.id).length : ℚ)))),
                reviewsCount := some (InMemoryDatabase.findBy
                  (InMemoryDatabase.setEntry s.reviewsDb genId
                    ⟨genId, now, now, rd⟩)
                  (fun e => e.payload.productId) p.id).length }) now).2 }) := by
    simp only [ReviewService.submitReview]
    rw [if_neg hguard, hp]
    rfl
  rw [hsr]
  dsimp only
  refine ⟨rfl, ?_⟩
  rw [hid]
  refine ⟨⟨p.id, p.createdAt, now,
    { p.payload with
      rating := some (roundTo1 (((InMemoryDatabase.findBy
          (InMemoryDatabase.setEntry s.reviewsDb genId ⟨genId, now, now, rd⟩)
          (fun e => e.payload.productId) rd.productId).foldl
            (fun sum rv => sum + rv.payload.rating) 0) /
        (((InMemoryDatabase.findBy
          (InMemoryDatabase.setEntry s.reviewsDb genId ⟨genId, now, now, rd⟩)
          (fun e => e.payload.productId) rd.productId).length : ℚ)))),
      reviewsCount := some (InMemoryDatabase.findBy
        (InMemoryDatabase.setEntry s.reviewsDb genId ⟨genId, now, now, rd⟩)
        (fun e => e.payload.productId) rd.productId).length }⟩, ?_, ?_, ?_⟩
  · rw [InMemoryDatabase.get_update_snd, if_pos rfl, hp]
    rfl
  · dsimp only
    rw [foldl_add_eq_sum, zero_add]
    rfl
  · rfl

theorem submitReview_sets_mean_and_count_witness :
    (InMemoryDatabase.get sC6.productsDb rdW.productId = some prodA ∧
      prodA.id = rdW.productId ∧ 1 ≤ rdW.rating ∧ rdW.rating ≤ 5) ∧
    ((ReviewService.submitReview sC6 rdW "r3" 9).1.success = true ∧
    ∃ p', InMemoryDatabase.get
        (ReviewService.submitReview sC6 rdW "r3" 9).2.productsDb rdW.productId =
        some p' ∧
      p'.payload.rating = some (roundTo1 (meanRating
        (InMemoryDatabase.findBy
          (ReviewService.submitReview sC6 rdW "r3" 9).2.reviewsDb
          (fun e => e.payload.productId) rdW.productId))) ∧
      p'.payload.reviewsCount = some
        (InMemoryDatabase.findBy
          (ReviewService.submitReview sC6 rdW "r3" 9).2.reviewsDb
          (fun e => e.payload.productId) rdW.productId).length) :=
  ⟨⟨by decide, by decide, by decide, by decide⟩,
   submitReview_sets_mean_and_count sC6 rdW "r3" 9 prodA (by decide) (by decide)
     (by decide) (by decide)⟩

/-- C4: a successful `createOrder` returns an order whose `totalAmount`
is the sum over line items of quantity times the product's price at call
time, whose captured items record that price per item, and it decrements
each product's stock by exactly the total quantity requested for it. -/
theorem createOrder_success_effects (s : SState) (userId : String)
    (items : List ReqItem) (addr : Address) (pm : PaymentMethod)
    (genId : String) (now : Nat) (hwf : dbWF s.productsDb)
    (h : (OrderService.createOrder s userId items addr pm genId now).1.success
      = true) :
    ∃ ord : Entity OrderData,
      (OrderService.createOrder s userId items addr pm genId now).1.data =
        some ord ∧
      ord.payload.totalAmount =
        (items.map (fun it =>
          priceOf s.productsDb it.productId * (it.quantity : ℚ))).sum ∧
      ord.payload.items = items.map (captureItem s.productsDb) ∧
      ∀ pid (p : Entity ProductData),
        InMemoryDatabase.get s.productsDb pid = some p →
        ∃ p', InMemoryDatabase.get
            (OrderService.createOrder s userId items addr pm genId
              now).2.productsDb pid = some p' ∧
          p'.payload.stock = p.payload.stock - reqQty items pid ∧
          p'.payload.price = p.payload.price := by
  cases hu : InMemoryDatabase.get s.usersDb userId with
  | none => simp [OrderService.createOrder, hu, ApiResponse.err] at h
  | some u =>
    rcases hl : OrderService.createOrderLoop s.productsDb items [] 0 now with
      ⟨errOpt, pdb', its', tot⟩
    cases errOpt with
    | some e => simp [OrderService.createOrder, hu, hl, ApiResponse.err] at h
    | none =>
      have key : OrderService.createOrder s userId items addr pm genId now =
          (ApiResponse.ok ⟨genId, now, now,
            ⟨userId, its', tot, OrderStatus.Pending, addr, pm,
             PaymentStatus.Unpaid, none, none⟩⟩,
           { s with
             productsDb := pdb',
             ordersDb := (InMemoryDatabase.setEntry s.ordersDb genId
               ⟨genId, now, now, ⟨userId, its', tot, OrderStatus.Pending, addr,
                 pm, PaymentStatus.Unpaid, none, none⟩⟩) }) := by
        simp only [OrderService.createOrder, hu, hl]
        rfl
      obtain ⟨L1, L2, L3⟩ :=
        createOrderLoop_ok items s.productsDb [] 0 now hwf (by rw [hl])
      rw [hl] at L1 L2 L3
      dsimp only at L1 L2 L3
      rw [List.nil_append] at L2
      rw [zero_add] at L3
      refine ⟨⟨genId, now, now,
        ⟨userId, its', tot, OrderStatus.Pending, addr, pm, PaymentStatus.Unpaid,
         none, none⟩⟩, by rw [key]; rfl, L3, L2, ?_⟩
      intro pid p hp
      obtain ⟨p', h1, h2, h3, _, _⟩ := L1 pid p hp
      refine ⟨p', ?_, h2, h3⟩
      rw [key]
      exact h1

theorem createOrder_success_effects_witness :
    (dbWF sC1.productsDb ∧
      (OrderService.createOrder sC1 "u1" [⟨"pA", 2⟩] addrX
        PaymentMethod.CreditCard "o1" 7).1.success = true) ∧
    (∃ ord : Entity OrderData,
      (OrderService.createOrder sC1 "u1" [⟨"pA", 2⟩] addrX
        PaymentMethod.CreditCard "o1" 7).1.data = some ord ∧
      ord.payload.totalAmount =
        (([⟨"pA", 2⟩] : List ReqItem).map (fun it =>
          priceOf sC1.productsDb it.productId * (it.quantity : ℚ))).sum ∧
      ord.payload.items =
        ([⟨"pA", 2⟩] : List ReqItem).map (captureItem sC1.productsDb) ∧
      ∀ pid (p : Entity ProductData),
        InMemoryDatabase.get sC1.productsDb pid = some p →
        ∃ p', InMemoryDatabase.get
            (OrderService.createOrder sC1 "u1" [⟨"pA", 2⟩] addrX
              PaymentMethod.CreditCard "o1" 7).2.productsDb pid = some p' ∧
          p'.payload.stock = p.payload.stock - reqQty [⟨"pA", 2⟩] pid ∧
          p'.payload.price = p.payload.price) :=
  ⟨⟨by unfold dbWF; decide, by decide⟩,
   createOrder_success_effects sC1 "u1" [⟨"pA", 2⟩] addrX
     PaymentMethod.CreditCard "o1" 7 (by unfold dbWF; decide) (by decide)⟩
